import Mathlib

/-!
Verification of the loopers GUI core (loopers-gui/src/app.rs) against its
natural-language specification. The Rust code is shallowly embedded below:
machine integers become Int/Nat, Rust f32/f64 arithmetic on the quantities the
claims mention is modelled exactly over ℚ, and the stateful widgets become
explicit state-passing functions. Rust i64 division (which truncates toward
zero) is Int.tdiv; i64::rem_euclid (result in [0, modulus) for a positive
modulus) is Int.emod.
-/

namespace Loopers

/-- Looper playback modes (loopers_common::api::LooperMode as consumed by app.rs). -/
inductive LooperMode
  | Recording
  | Overdubbing
  | Playing
  | Soloed
  | Muted
deriving DecidableEq

/-- Per-looper transport commands sent to the engine. -/
inductive LooperCommand
  | Record
  | Overdub
  | Play
  | Mute
deriving DecidableEq

/-- Addressing of a per-looper command. -/
inductive LooperTarget
  | Id (id : ℕ)
deriving DecidableEq

/-- Outbound commands from the GUI to the engine (loopers_common::api::Command,
the variants app.rs sends). -/
inductive Command
  | AddLooper
  | Looper (cmd : LooperCommand) (target : LooperTarget)
  | SelectLooperById (id : ℕ)
  | SetTempoBPM (bpm : ℚ)
  | SaveSession (path : String)
  | LoadSession (path : String)
deriving DecidableEq

/-- Tile start offset computed in WaveformView::draw (app.rs 1214-1219):
if time < length then 0 else ((time / length) - 1) * length, where the Rust
i64 division truncates toward zero (Int.tdiv). -/
def start_time (time : Int) (length : Nat) : Int :=
  if time < (length : Int) then 0
  else (Int.tdiv time (length : Int) - 1) * (length : Int)

/-- s is the greatest multiple of L that is at most m. -/
def greatestMultipleLE (L m s : Int) : Prop :=
  (∃ k : Int, s = k * L) ∧ s ≤ m ∧ ∀ j : Int, j * L ≤ m → j * L ≤ s

/-- Fixed supersampling factor IMAGE_SCALE = 4.0 (app.rs 879). -/
def IMAGE_SCALE : ℚ := 4

/-- Rust numeric cast to i32 of a nonnegative-or-negative rational value:
truncation toward zero (saturation is unreachable at GUI pixel sizes). -/
def asI32 (q : ℚ) : Int := if 0 ≤ q then ⌊q⌋ else ⌈q⌉

/-- Mutable part of DrawCache (app.rs 890-903): the stored bitmap is abstracted
to its pixel dimensions (the only attribute the staleness test reads), plus the
stored fingerprint key. -/
structure DrawCacheState (K : Type) where
  image : Option (Int × Int)
  key : Option K

/-- Supersampled pixel size of DrawCache::draw (app.rs 921):
((w * IMAGE_SCALE) as i32, (h * IMAGE_SCALE) as i32). -/
def scaledSize (w h : ℚ) : Int × Int :=
  (asI32 (w * IMAGE_SCALE), asI32 (h * IMAGE_SCALE))

/-- DrawCache::draw (app.rs 905-969). Returns the state after the call and
whether the injected draw procedure ran (directly when use_cache is false,
into a freshly captured offscreen bitmap when the cache was stale). -/
def DrawCache.draw {K : Type} [DecidableEq K] (s : DrawCacheState K) (key : K)
    (w h : ℚ) (use_cache : Bool) : DrawCacheState K × Bool :=
  if !use_cache then (s, true)
  else
    let size := scaledSize w h
    if s.key = none ∨ s.key ≠ some key ∨ s.image = none ∨ s.image ≠ some size then
      (⟨some size, some key⟩, true)
    else
      (s, false)

/-- Tempo editor state (app.rs 432-436): Default display, or
Editing (selected, buffer). -/
inductive TempoViewState
  | Default
  | Editing (selected : Bool) (buffer : String)
deriving DecidableEq

/-- Key events the tempo editor consumes (crate::KeyEventKey). -/
inductive KeyEventKey
  | Char (c : Char)
  | Backspace
  | Enter
  | Esc
deriving DecidableEq

/-- Decimal value of a digit string, most significant digit first. -/
def digitsToNat (l : List Char) : Nat :=
  l.foldl (fun n c => n * 10 + (c.toNat - 48)) 0

/-- Decimal parse used by TempoView::commit. f32::from_str is standard-library
code outside this repository; on the buffers this field can hold (strings of
decimal digits, capped at 3 characters) it succeeds exactly on nonempty digit
strings and returns their numeric value, which is exact in f32 below 1000. -/
def parseTempo (s : String) : Option ℚ :=
  if s.data ≠ [] ∧ s.data.all Char.isDigit then some ((digitsToNat s.data : ℕ) : ℚ)
  else none

/-- TempoView::commit (app.rs 451-463). Returns the commands sent, whether a
validation failure was logged, and the next state. The state is reset to
Default unconditionally; a failed channel send only logs (the send itself is
modelled as enqueuing the command). -/
def TempoView.commit (state : TempoViewState) : List Command × Bool × TempoViewState :=
  match state with
  | .Default => ([], false, .Default)
  | .Editing _ s =>
    match parseTempo s with
    | some tempo => ([Command.SetTempoBPM tempo], false, .Default)
    | none => ([], !s.isEmpty, .Default)

/-- Keyboard handling while the tempo editor is open, from TempoView::draw
(app.rs 507-533). Returns the next state and whether a commit was triggered.
Rust char::is_numeric is modelled by Char.isDigit and Rust byte length by
String.length: the buffers involved only ever hold ASCII digits, on which the
two pairs agree. -/
def TempoView.keyPressed (state : TempoViewState) (key : KeyEventKey) :
    TempoViewState × Bool :=
  match state, key with
  | .Editing selected edited, .Char c =>
    if c.isDigit then
      let edited1 := if selected then "" else edited
      let edited2 := if edited1.length < 3 then edited1.push c else edited1
      (.Editing false edited2, false)
    else
      (.Editing selected edited, false)
  | .Editing selected edited, .Backspace =>
    (.Editing selected (if selected then "" else edited.dropRight 1), false)
  | .Editing selected edited, .Enter => (.Editing selected edited, true)
  | .Editing selected edited, .Esc => (.Editing selected edited, true)
  | .Default, _ => (.Default, false)

/-- AnimationFunction::value for EaseOutCubic (app.rs 70-73):
let t1 = t - 1.0 in t1 * t1 * t1 + 1.0. -/
def easeOutCubic (t : ℚ) : ℚ :=
  (t - 1) * (t - 1) * (t - 1) + 1

/-- Animation::value (app.rs 93-96) for the beat-pulse animation started in
MainPage::draw (app.rs 258-272) with fixed 500 ms duration and EaseOutCubic.
Times are taken in milliseconds; FrameTime::to_ms (external to this file) is a
monotone affine map from sample time, so sampling later in sample time means a
larger nowMs here. -/
def beatAnimationValue (startMs nowMs : ℚ) : ℚ :=
  easeOutCubic ((nowMs - startMs) / 500)

/-- First reconciliation pass of MainPage::draw (app.rs 195-200): a view is
inserted for every snapshot track id that has none; existing views are kept. -/
def addNewViews (views snapshot : Finset ℕ) : Finset ℕ := views ∪ snapshot

/-- Second reconciliation pass of MainPage::draw (app.rs 202-212): every view
id without a snapshot entry is removed. -/
def removeDeletedViews (views snapshot : Finset ℕ) : Finset ℕ :=
  views.filter (fun id => id ∈ snapshot)

/-- Both passes of MainPage::draw run in order on the held view-id set. -/
def reconcileViews (views snapshot : Finset ℕ) : Finset ℕ :=
  removeDeletedViews (addNewViews views snapshot) snapshot

/-- Iteration order of the view BTreeMap when rendering (app.rs 217):
ascending key order, independent of insertion order. -/
def renderOrder (views : Finset ℕ) : List ℕ := views.sort (fun a b => a ≤ b)

/-- Caret blink from TempoView::draw (app.rs 564-566): the caret is drawn
exactly when wall-clock milliseconds modulo 1500 exceed 500. -/
def caretVisible (ms : ℕ) : Bool := decide (500 < ms % 1500)

/-- Mode-button transition table from the LooperView::draw click handler
(app.rs 819-830), as a function of (current looper mode, button mode). -/
def buttonCommand (looperState mode : LooperMode) : Option LooperCommand :=
  match looperState, mode with
  | .Recording, .Recording => some .Overdub
  | _, .Recording => some .Record
  | .Overdubbing, .Overdubbing => some .Play
  | _, .Overdubbing => some .Overdub
  | .Muted, .Muted => some .Play
  | _, .Muted => some .Mute
  | _, _ => none

/-- Effect of a per-track mode-button left click (app.rs 815-840): the
commands emitted and whether the unhandled-combination warning was logged. -/
def modeButtonClick (looperState mode : LooperMode) (id : ℕ) : List Command × Bool :=
  match buttonCommand looperState mode with
  | some c => ([Command.Looper c (.Id id)], false)
  | none => ([], true)

/-- MainPage::draw (app.rs 283-286): the add button is drawn exactly when the
page holds fewer than 5 per-track views. -/
def showsAddButton (numLoopers : ℕ) : Bool := decide (numLoopers < 5)

/-- Add-track commands emitted from the main page in one frame: AddButton::draw
(app.rs 144-149) sends AddLooper on a left click, and is reachable only under
the fewer-than-5 guard of MainPage::draw. -/
def addButtonCommands (numLoopers : ℕ) (leftClick : Bool) : List Command :=
  if numLoopers < 5 then (if leftClick then [Command.AddLooper] else []) else []

/-- Loop-completion fraction from LooperView::draw (app.rs 761-765): 0 when
length == 0 or the mode is Recording, else time.rem_euclid(length) / length.
The f32 quotient is modelled exactly in ℚ. -/
def completionFrac (time : Int) (length : Nat) (state : LooperMode) : ℚ :=
  if length = 0 ∨ state = .Recording then 0
  else ((Int.emod time (length : Int) : Int) : ℚ) / ((length : ℕ) : ℚ)

/-- Helper: the cube function on ℚ is monotone. -/
theorem cube_mono {a b : ℚ} (h : a ≤ b) : a * a * a ≤ b * b * b := by
  nlinarith [sq_nonneg (a + b), sq_nonneg (a - b), sq_nonneg a, sq_nonneg b]

/-- C1: the claimed start offset is wrong at exact multiples of the loop
length: for L = 48000 and t_now = 96000 the code computes start = 48000, which
is not strictly less than t_now - L = 48000, so it is not the greatest multiple
of L strictly below t_now - L. -/
theorem C1_counterexample :
    start_time 96000 48000 = 48000 ∧
    ¬ start_time 96000 48000 < (96000 : Int) - 48000 := by
  constructor
  · decide
  · decide

/-- C1 (amended): for every loop length L > 0, if t_now < L the tile start
offset is 0, and otherwise it is the greatest multiple of L that is less than
or equal to t_now - L (not strictly less); in particular for L = 48000 and
t_now = 60000 the computed start equals 0. -/
theorem C1_tile_start (t : Int) (L : Nat) (hL : 0 < L) :
    (t < (L : Int) → start_time t L = 0) ∧
    ((L : Int) ≤ t → greatestMultipleLE (L : Int) (t - (L : Int)) (start_time t L)) ∧
    start_time 60000 48000 = 0 := by
  have hLZ : (0 : Int) < (L : Int) := by exact_mod_cast hL
  refine ⟨fun h => by simp [start_time, h], fun h => ?_, by decide⟩
  have hnl : ¬ t < (L : Int) := not_lt.mpr h
  have ht0 : (0 : Int) ≤ t := le_trans hLZ.le h
  have hdiv : Int.tdiv t (L : Int) = t / (L : Int) := Int.tdiv_eq_ediv ht0 hLZ.le
  have hstart : start_time t L = (t / (L : Int) - 1) * (L : Int) := by
    simp only [start_time, if_neg hnl, hdiv]
  rw [hstart]
  have hmod : (L : Int) * (t / (L : Int)) + Int.emod t (L : Int) = t :=
    Int.ediv_add_emod t (L : Int)
  have hr0 : 0 ≤ Int.emod t (L : Int) := Int.emod_nonneg t (ne_of_gt hLZ)
  have hrlt : Int.emod t (L : Int) < (L : Int) := Int.emod_lt_of_pos t hLZ
  refine ⟨⟨t / (L : Int) - 1, rfl⟩, ?_, ?_⟩
  · have hexp : (t / (L : Int) - 1) * (L : Int)
        = (L : Int) * (t / (L : Int)) - (L : Int) := by ring
    linarith
  · intro j hj
    by_contra hcon
    push_neg at hcon
    have hjq : t / (L : Int) - 1 < j := lt_of_mul_lt_mul_right hcon hLZ.le
    have hqj : t / (L : Int) ≤ j := by linarith
    have hmul : (L : Int) * (t / (L : Int)) ≤ (L : Int) * j :=
      mul_le_mul_of_nonneg_left hqj hLZ.le
    have hcomm : j * (L : Int) = (L : Int) * j := mul_comm _ _
    linarith

/-- Witness for C1_tile_start at L = 48000, t_now = 60000. -/
theorem C1_tile_start_witness :
    0 < 48000 ∧
    greatestMultipleLE (48000 : Int) (60000 - 48000) (start_time 60000 48000) ∧
    start_time 60000 48000 = 0 :=
  ⟨by decide, (C1_tile_start 60000 48000 (by decide)).2.1 (by decide),
    (C1_tile_start 60000 48000 (by decide)).2.2⟩

/-- C4: the claim fails after the nominal duration: sampling the 500 ms
beat-pulse animation 1000 ms after its start gives progress 2, outside [0, 1]
(the easing output is not clamped). -/
theorem C4_counterexample :
    beatAnimationValue 0 1000 = 2 ∧ ¬ beatAnimationValue 0 1000 ≤ 1 := by
  norm_num [beatAnimationValue, easeOutCubic]

/-- C4 (amended): the beat-pulse progress is monotonically non-decreasing in
the sample time for all samples at or after the start, and lies in [0, 1] for
samples within the nominal 500 ms duration; past the duration the un-clamped
value exceeds 1 (see the counterexample). -/
theorem C4_animation (startMs t u : ℚ) (h1 : startMs ≤ t) (h2 : t ≤ u) :
    beatAnimationValue startMs t ≤ beatAnimationValue startMs u ∧
    (t ≤ startMs + 500 →
      0 ≤ beatAnimationValue startMs t ∧ beatAnimationValue startMs t ≤ 1) := by
  have hp0 : 0 ≤ (t - startMs) / 500 := div_nonneg (by linarith) (by norm_num)
  constructor
  · have hle : (t - startMs) / 500 ≤ (u - startMs) / 500 := by
      rw [div_le_div_iff_of_pos_right (by norm_num : (0 : ℚ) < 500)]
      linarith
    simp only [beatAnimationValue, easeOutCubic]
    have := cube_mono (sub_le_sub_right hle 1)
    linarith
  · intro hwin
    have hp1 : (t - startMs) / 500 ≤ 1 := by
      rw [div_le_one (by norm_num)]
      linarith
    simp only [beatAnimationValue, easeOutCubic]
    constructor
    · nlinarith [sq_nonneg ((t - startMs) / 500 - 1)]
    · nlinarith [sq_nonneg ((t - startMs) / 500 - 1)]

/-- Witness for C4_animation with start 0 ms, samples at 100 ms and 200 ms. -/
theorem C4_animation_witness :
    beatAnimationValue 0 100 ≤ beatAnimationValue 0 200 ∧
    0 ≤ beatAnimationValue 0 100 ∧ beatAnimationValue 0 100 ≤ 1 :=
  ⟨(C4_animation 0 100 200 (by norm_num) (by norm_num)).1,
    (C4_animation 0 100 200 (by norm_num) (by norm_num)).2 (by norm_num)⟩

/-- C2: with use_cache = true, DrawCache::draw runs the injected draw
procedure (capturing a new bitmap) exactly when nothing is cached, the stored
key differs from the request, or the stored pixel size differs from the
request scaled by IMAGE_SCALE; after every call the stored key and pixel size
equal the current request (so the cache is valid for it); and an immediately
repeated identical (key, size) call does not run the draw procedure again. -/
theorem C2_draw_cache {K : Type} [DecidableEq K] (s : DrawCacheState K)
    (key : K) (w h : ℚ) :
    ((DrawCache.draw s key w h true).2 = true ↔
      (s.image = none ∨ s.key ≠ some key ∨ s.image ≠ some (scaledSize w h))) ∧
    (DrawCache.draw s key w h true).1.key = some key ∧
    (DrawCache.draw s key w h true).1.image = some (scaledSize w h) ∧
    (DrawCache.draw (DrawCache.draw s key w h true).1 key w h true).2 = false := by
  obtain ⟨img, k⟩ := s
  by_cases hk : k = some key
  · by_cases hi : img = some (scaledSize w h)
    · simp [DrawCache.draw, hk, hi]
    · simp [DrawCache.draw, hk, hi]
  · simp [DrawCache.draw, hk]

/-- Witness for C2_draw_cache on an initially empty cache over ℕ keys. -/
theorem C2_draw_cache_witness :
    (DrawCache.draw
      (DrawCache.draw (⟨none, none⟩ : DrawCacheState ℕ) 7 1 1 true).1
      7 1 1 true).2 = false ∧
    (DrawCache.draw (⟨none, none⟩ : DrawCacheState ℕ) 7 1 1 true).1.key = some 7 :=
  ⟨(C2_draw_cache (⟨none, none⟩ : DrawCacheState ℕ) 7 1 1).2.2.2,
    (C2_draw_cache (⟨none, none⟩ : DrawCacheState ℕ) 7 1 1).2.1⟩

/-- C3: committing Editing(selected, buffer) emits exactly one set-tempo
command with the parsed value when the buffer parses (committing "120" emits
SetTempoBPM 120), emits nothing but logs on a failed parse of a nonempty
buffer, emits nothing silently on an empty buffer, and in every case leaves
the state at Default. -/
theorem C3_commit (selected : Bool) (buffer : String) (v : ℚ) :
    (parseTempo buffer = some v →
      TempoView.commit (.Editing selected buffer)
        = ([Command.SetTempoBPM v], false, .Default)) ∧
    (parseTempo buffer = none → buffer ≠ "" →
      TempoView.commit (.Editing selected buffer) = ([], true, .Default)) ∧
    TempoView.commit (.Editing selected "") = ([], false, .Default) ∧
    (TempoView.commit (.Editing selected buffer)).2.2 = .Default ∧
    TempoView.commit (.Editing selected "120")
      = ([Command.SetTempoBPM 120], false, .Default) := by
  have h120 : parseTempo "120" = some 120 := by
    have hd : ("120").data ≠ [] ∧ ("120").data.all Char.isDigit := by decide
    have hv : ((digitsToNat ("120").data : ℕ) : ℚ) = 120 := by
      have hn : digitsToNat ("120").data = 120 := by decide
      rw [hn]
      norm_num
    rw [parseTempo, if_pos hd, hv]
  refine ⟨fun hp => by simp [TempoView.commit, hp], fun hp hne => ?_, ?_, ?_, ?_⟩
  · have hemp : buffer.isEmpty = false := by
      rcases Bool.eq_false_or_eq_true buffer.isEmpty with h | h
      · exact absurd ((String.isEmpty_iff buffer).mp h) hne
      · exact h
    simp [TempoView.commit, hp, hemp]
  · have hn : parseTempo "" = none := by
      rw [parseTempo, if_neg]
      simp
    have he : ("" : String).isEmpty = true := by decide
    simp [TempoView.commit, hn, he]
  · rcases hcase : parseTempo buffer with _ | w <;>
      simp [TempoView.commit, hcase]
  · simp [TempoView.commit, h120]

/-- Witness for C3_commit: commits of "120" and of the empty buffer. -/
theorem C3_commit_witness :
    TempoView.commit (.Editing true "120")
      = ([Command.SetTempoBPM 120], false, .Default) ∧
    TempoView.commit (.Editing true "") = ([], false, .Default) :=
  ⟨(C3_commit true "120" 120).2.2.2.2, (C3_commit true "" 0).2.2.1⟩

/-- C5: after the reconciliation passes of MainPage::draw, the held set of
per-track view ids equals exactly the snapshot track-id set, and the render
order is strictly ascending in id regardless of what was held before. -/
theorem C5_reconcile (views snapshot : Finset ℕ) :
    reconcileViews views snapshot = snapshot ∧
    List.Sorted (fun a b => a < b) (renderOrder (reconcileViews views snapshot)) := by
  constructor
  · ext id
    simp only [reconcileViews, removeDeletedViews, addNewViews, Finset.mem_filter,
      Finset.mem_union]
    tauto
  · exact Finset.sort_sorted_lt _

/-- Witness for C5_reconcile on concrete view and snapshot sets. -/
theorem C5_reconcile_witness :
    reconcileViews {1, 3} {2} = {2} ∧
    List.Sorted (fun a b => a < b) (renderOrder (reconcileViews {1, 3} {2})) :=
  C5_reconcile {1, 3} {2}

/-- C6: while Editing, a numeric keystroke with selected = true clears the
buffer before appending and clears selected; with selected = false it appends
only while the buffer is below 3 characters and is ignored at the cap;
Backspace clears the buffer entirely when selected and otherwise removes the
last character. -/
theorem C6_keys (buffer : String) (c : Char) (h : c.isDigit = true) :
    TempoView.keyPressed (.Editing true buffer) (.Char c)
      = (.Editing false ("".push c), false) ∧
    (buffer.length < 3 →
      TempoView.keyPressed (.Editing false buffer) (.Char c)
        = (.Editing false (buffer.push c), false)) ∧
    (3 ≤ buffer.length →
      TempoView.keyPressed (.Editing false buffer) (.Char c)
        = (.Editing false buffer, false)) ∧
    TempoView.keyPressed (.Editing true buffer) .Backspace
      = (.Editing true "", false) ∧
    TempoView.keyPressed (.Editing false buffer) .Backspace
      = (.Editing false (buffer.dropRight 1), false) := by
  refine ⟨?_, fun hlen => ?_, fun hlen => ?_, ?_, ?_⟩
  · simp [TempoView.keyPressed, h]
  · simp [TempoView.keyPressed, h, hlen]
  · simp [TempoView.keyPressed, h, Nat.not_lt.mpr hlen]
  · simp [TempoView.keyPressed]
  · simp [TempoView.keyPressed]

/-- Witness for C6_keys with buffer "12" and the digit key 5. -/
theorem C6_keys_witness :
    Char.isDigit '5' = true ∧
    TempoView.keyPressed (.Editing true "12") (.Char '5')
      = (.Editing false ("".push '5'), false) ∧
    TempoView.keyPressed (.Editing false "12") (.Char '5')
      = (.Editing false ("12".push '5'), false) ∧
    TempoView.keyPressed (.Editing false "12") .Backspace
      = (.Editing false ("12".dropRight 1), false) :=
  ⟨by decide, (C6_keys "12" '5' (by decide)).1,
    (C6_keys "12" '5' (by decide)).2.1 (by decide),
    (C6_keys "12" '5' (by decide)).2.2.2.2⟩

set_option maxRecDepth 40000 in
/-- C7: the claimed duty cycle is inverted: over one 1500 ms period the caret
is drawn for 999 of the 1500 integer milliseconds, not 500 (the code draws
exactly when ms % 1500 > 500, so it is on for roughly 1000 ms and off for
roughly 500 ms). -/
theorem C7_counterexample :
    ((List.range 1500).filter (fun m => caretVisible m)).length = 999 ∧
    (999 : ℕ) ≠ 500 := by
  constructor
  · decide
  · decide

set_option maxRecDepth 40000 in
/-- C7 (amended): while editing with selected = false, the caret is visible
exactly when wall-clock milliseconds modulo 1500 exceed 500 — about 1000 ms
on and 500 ms off per period (999 of the 1500 integer-millisecond ticks), the
reverse of the claimed 500 on / 1000 off; the pattern is 1500 ms periodic. -/
theorem C7_caret (ms : ℕ) :
    caretVisible (ms + 1500) = caretVisible ms ∧
    (caretVisible ms = true ↔ 500 < ms % 1500) ∧
    ((List.range 1500).filter (fun m => caretVisible m)).length = 999 := by
  refine ⟨?_, ?_, by decide⟩
  · simp [caretVisible, Nat.add_mod_right]
  · simp [caretVisible]

/-- Witness for C7_caret at ms = 0. -/
theorem C7_caret_witness :
    caretVisible (0 + 1500) = caretVisible 0 ∧
    (caretVisible 0 = true ↔ 500 < 0 % 1500) ∧
    ((List.range 1500).filter (fun m => caretVisible m)).length = 999 :=
  C7_caret 0

/-- C8: any per-track mode-button left click whose (current looper mode,
button mode) pair is outside the defined transitions — every pair other than
(Recording, Recording), (any, Recording), (Overdubbing, Overdubbing),
(any, Overdubbing), (Muted, Muted), (any, Muted) — logs the warning and emits
no command to the engine. -/
theorem C8_unhandled (s t : LooperMode) (id : ℕ)
    (h : ¬ ((s = .Recording ∧ t = .Recording) ∨ t = .Recording ∨
        (s = .Overdubbing ∧ t = .Overdubbing) ∨ t = .Overdubbing ∨
        (s = .Muted ∧ t = .Muted) ∨ t = .Muted)) :
    modeButtonClick s t id = ([], true) := by
  cases s <;> cases t <;> simp_all [modeButtonClick, buttonCommand]

/-- Witness for C8_unhandled: the Solo button pressed while Playing. -/
theorem C8_unhandled_witness :
    (¬ ((LooperMode.Playing = LooperMode.Recording ∧
          LooperMode.Soloed = LooperMode.Recording) ∨
        LooperMode.Soloed = LooperMode.Recording ∨
        (LooperMode.Playing = LooperMode.Overdubbing ∧
          LooperMode.Soloed = LooperMode.Overdubbing) ∨
        LooperMode.Soloed = LooperMode.Overdubbing ∨
        (LooperMode.Playing = LooperMode.Muted ∧
          LooperMode.Soloed = LooperMode.Muted) ∨
        LooperMode.Soloed = LooperMode.Muted)) ∧
    modeButtonClick LooperMode.Playing LooperMode.Soloed 0 = ([], true) :=
  ⟨by decide, C8_unhandled LooperMode.Playing LooperMode.Soloed 0 (by decide)⟩

/-- C9: the add-track button is drawn exactly when the page holds fewer than
5 per-track views, and with 5 or more tracks no frame draws it or emits an
add-track command from it. -/
theorem C9_add_button (n : ℕ) (click : Bool) :
    (showsAddButton n = true ↔ n < 5) ∧
    (5 ≤ n → showsAddButton n = false ∧ addButtonCommands n click = []) := by
  constructor
  · simp [showsAddButton]
  · intro h
    constructor
    · simp [showsAddButton, Nat.not_lt.mpr h]
    · simp [addButtonCommands, Nat.not_lt.mpr h]

/-- Witness for C9_add_button at 3 and at 5 loopers. -/
theorem C9_add_button_witness :
    (showsAddButton 3 = true ↔ 3 < 5) ∧
    showsAddButton 5 = false ∧ addButtonCommands 5 true = [] :=
  ⟨(C9_add_button 3 true).1, (C9_add_button 5 true).2 (by decide)⟩

/-- C10: the completion fraction passed to the circle indicator is 0 when the
loop length is 0 or the mode is Recording (the division is guarded away in
that case), and otherwise equals (time rem_euclid length) / length, which
lies in [0, 1). -/
theorem C10_completion (time : Int) (length : Nat) (state : LooperMode) :
    (length = 0 ∨ state = .Recording → completionFrac time length state = 0) ∧
    (length ≠ 0 → state ≠ .Recording →
      completionFrac time length state
        = ((Int.emod time (length : Int) : Int) : ℚ) / ((length : ℕ) : ℚ) ∧
      0 ≤ completionFrac time length state ∧
      completionFrac time length state < 1) := by
  constructor
  · intro h
    simp only [completionFrac, if_pos h]
  · intro h1 h2
    have hcond : ¬ (length = 0 ∨ state = .Recording) := by tauto
    have heq : completionFrac time length state
        = ((Int.emod time (length : Int) : Int) : ℚ) / ((length : ℕ) : ℚ) := by
      simp only [completionFrac, if_neg hcond]
    have hLZ : (0 : Int) < (length : Int) := by
      exact_mod_cast Nat.pos_of_ne_zero h1
    have hr0 : (0 : Int) ≤ Int.emod time (length : Int) :=
      Int.emod_nonneg time (ne_of_gt hLZ)
    have hrlt : Int.emod time (length : Int) < (length : Int) :=
      Int.emod_lt_of_pos time hLZ
    have hq0 : (0 : ℚ) ≤ ((Int.emod time (length : Int) : Int) : ℚ) := by
      exact_mod_cast hr0
    have hqL : (0 : ℚ) < ((length : ℕ) : ℚ) := by exact_mod_cast hLZ
    have hqlt : ((Int.emod time (length : Int) : Int) : ℚ) < ((length : ℕ) : ℚ) := by
      exact_mod_cast hrlt
    refine ⟨heq, ?_, ?_⟩
    · rw [heq]
      exact div_nonneg hq0 hqL.le
    · rw [heq]
      exact (div_lt_one hqL).mpr hqlt

/-- Witness for C10_completion: length 0, and time 7 into a 5-sample loop. -/
theorem C10_completion_witness :
    completionFrac 7 0 LooperMode.Playing = 0 ∧
    completionFrac 7 5 LooperMode.Playing
      = ((Int.emod 7 (5 : Int) : Int) : ℚ) / ((5 : ℕ) : ℚ) ∧
    0 ≤ completionFrac 7 5 LooperMode.Playing ∧
    completionFrac 7 5 LooperMode.Playing < 1 :=
  ⟨(C10_completion 7 0 LooperMode.Playing).1 (Or.inl rfl),
    (C10_completion 7 5 LooperMode.Playing).2 (by decide) (by decide)⟩

end Loopers
